import Mathlib

/-! Charon: request dispatch, handler pipeline and error taxonomy.

A shallow embedding of `errors/error.go`, `logger/level.go`, the parts of
`logger/logger.go` that `charon.go` calls, and `charon.go` itself.

Modelling conventions.

* Go `string` and `[]byte` values are sequences of bytes (`GoString`), which need not
  be well-formed UTF-8; a string literal of the source stands for its UTF-8
  encoding. `nil` slices, maps and interface values are `none`.
* Go `int` status codes are `Int`; no arithmetic is performed on them.
* A Go function that may panic returns an `Outcome`; the panic value keeps the one
  distinction the program makes: whether its dynamic type is `string`.
* The effects of a run (handler stages entered, texts handed to the log sink, calls
  of the response writer and what the default writer does to the
  `http.ResponseWriter`) are recorded, in order, as a list of `Event`s.
* What the program calls in the Go standard library (`encoding/json`, `unicode/utf8`,
  the `WriteHeader` of `net/http`) is modelled from the library's documented
  behaviour and source; those definitions say so.
-/

namespace Charon

set_option maxRecDepth 100000

/-! ## Go strings -/

/-- A Go `string` or `[]byte`: a sequence of bytes, which need not be well-formed
UTF-8. -/
abbrev GoString := List (Fin 256)

/-- The byte with the given value (below 256). -/
def byte (n : Nat) : Fin 256 := Fin.ofNat n

/-- The UTF-8 encoding of a code point (`utf8.EncodeRune`). -/
def encodeRune (c : Char) : GoString :=
  if c.toNat < 128 then [byte c.toNat]
  else if c.toNat < 2048 then [byte (192 + c.toNat / 64), byte (128 + c.toNat % 64)]
  else if c.toNat < 65536 then
    [byte (224 + c.toNat / 4096), byte (128 + c.toNat / 64 % 64), byte (128 + c.toNat % 64)]
  else
    [byte (240 + c.toNat / 262144), byte (128 + c.toNat / 4096 % 64),
      byte (128 + c.toNat / 64 % 64), byte (128 + c.toNat % 64)]

/-- The UTF-8 encoding of a sequence of code points. -/
def utf8Chars : List Char → GoString
  | [] => []
  | c :: cs => encodeRune c ++ utf8Chars cs

/-- The bytes of a string literal of the source: its UTF-8 encoding. -/
def utf8 (s : String) : GoString := utf8Chars s.data

/-- A string literal is read as its bytes. -/
instance : Coe String GoString := ⟨utf8⟩

/-- A continuation byte, 0x80..0xBF. -/
def isCont (b : Fin 256) : Bool := 128 ≤ b.val ∧ b.val ≤ 191

/-- Modelled from the Go standard library (`utf8.DecodeRuneInString`): the code point
and width of the well-formed encoding at the head of the bytes, or `none` where Go
returns `(RuneError, 1)`: a byte that starts no well-formed encoding. -/
def decodeRune : GoString → Option (Nat × Nat)
  | [] => none
  | b0 :: rest =>
    if b0.val < 128 then some (b0.val, 1)
    else if 194 ≤ b0.val ∧ b0.val ≤ 223 then
      match rest with
      | b1 :: _ =>
        if isCont b1 then some ((b0.val - 192) * 64 + (b1.val - 128), 2) else none
      | [] => none
    else if 224 ≤ b0.val ∧ b0.val ≤ 239 then
      match rest with
      | b1 :: b2 :: _ =>
        if (if b0.val = 224 then 160 else 128) ≤ b1.val ∧
            b1.val ≤ (if b0.val = 237 then 159 else 191) ∧ isCont b2 then
          some (((b0.val - 224) * 64 + (b1.val - 128)) * 64 + (b2.val - 128), 3)
        else none
      | _ => none
    else if 240 ≤ b0.val ∧ b0.val ≤ 244 then
      match rest with
      | b1 :: b2 :: b3 :: _ =>
        if (if b0.val = 240 then 144 else 128) ≤ b1.val ∧
            b1.val ≤ (if b0.val = 244 then 143 else 191) ∧ isCont b2 ∧ isCont b3 then
          some ((((b0.val - 240) * 64 + (b1.val - 128)) * 64 + (b2.val - 128)) * 64
            + (b3.val - 128), 4)
        else none
      | _ => none
    else none

/-! ## errors/error.go -/

/-- The six implementations of the `errors.Error` interface, one constructor per
struct type, with the struct's fields. -/
inductive Error where
  | AuthenticationError (Mess Err : GoString)
  | AuthorizationError (Mess Err : GoString)
  | InvalidInputError (Mess Err : GoString)
  | InternalError (Mess Err : GoString)
  | InvalidMethodError (Mess Err : GoString)
  | CustomStatusError (Mess Err : GoString) (Status : Int)
  deriving DecidableEq, Repr

/-- The struct type of an error value. -/
inductive Variant where
  | Authentication | Authorization | InvalidInput | Internal | InvalidMethod | CustomStatus
  deriving DecidableEq, Repr

/-- The dynamic type of the interface value. -/
def Error.variant : Error → Variant
  | .AuthenticationError _ _ => .Authentication
  | .AuthorizationError _ _ => .Authorization
  | .InvalidInputError _ _ => .InvalidInput
  | .InternalError _ _ => .Internal
  | .InvalidMethodError _ _ => .InvalidMethod
  | .CustomStatusError _ _ _ => .CustomStatus

/-- Field `Mess`. -/
def Error.Mess : Error → GoString
  | .AuthenticationError m _ => m
  | .AuthorizationError m _ => m
  | .InvalidInputError m _ => m
  | .InternalError m _ => m
  | .InvalidMethodError m _ => m
  | .CustomStatusError m _ _ => m

/-- Field `Err`. -/
def Error.Err : Error → GoString
  | .AuthenticationError _ e => e
  | .AuthorizationError _ e => e
  | .InvalidInputError _ e => e
  | .InternalError _ e => e
  | .InvalidMethodError _ e => e
  | .CustomStatusError _ e _ => e

/-- Method `Message()`: `Mess` when it is not empty, else the variant's fallback. -/
def Error.Message : Error → GoString
  | .AuthenticationError m e => if m ≠ "" then m else e
  | .AuthorizationError m e => if m ≠ "" then m else e
  | .InvalidInputError m e => if m ≠ "" then m else e
  | .InternalError m _ => if m ≠ "" then m else "Internal Error, please contact admin"
  | .InvalidMethodError m _ => if m ≠ "" then m else "Invalid Method"
  | .CustomStatusError m _ _ => if m ≠ "" then m else "Invalid Method"

/-- Method `StatusCode()`, with the values of the `net/http` constants
`StatusForbidden`, `StatusUnauthorized`, `StatusBadRequest`,
`StatusInternalServerError` and `StatusMethodNotAllowed`. -/
def Error.StatusCode : Error → Int
  | .AuthenticationError _ _ => 403
  | .AuthorizationError _ _ => 401
  | .InvalidInputError _ _ => 400
  | .InternalError _ _ => 500
  | .InvalidMethodError _ _ => 405
  | .CustomStatusError _ _ s => s

/-- Method `Error()`: every variant returns `e.Err`. -/
def Error.Error : Error → GoString
  | .AuthenticationError _ e => e
  | .AuthorizationError _ e => e
  | .InvalidInputError _ e => e
  | .InternalError _ e => e
  | .InvalidMethodError _ e => e
  | .CustomStatusError _ e _ => e

/-! ### encoding/json, as used by `GetMessageBytes`

`json.Marshal` on a `map[string]string` writes the keys in sorted order, each key
and value as a JSON string literal with the encoder's escaping (HTML escaping on,
which is the default of `Marshal`). Bytes that are not well-formed UTF-8 are
written as the escape of U+FFFD. -/

/-- The lower-case hexadecimal digit of a value below 16 (`hex[n]`). -/
def hexDigit (n : Nat) : Fin 256 :=
  if n < 10 then byte (48 + n) else byte (87 + n)

/-- What the loop of `appendString` writes for a byte below `utf8.RuneSelf`, with
HTML escaping on (the default of `Marshal`): the byte itself when it is in
`htmlSafeSet`; else a two-character escape for the quote, the backslash and (Go
1.22 and later; earlier releases write the six-character form) `\b`, `\f`, and for
`\n`, `\r`, `\t`; else the six-character escape with two hexadecimal digits. -/
def escapeByte (b : Fin 256) : GoString :=
  if b = 34 then "\\\""
  else if b = 92 then "\\\\"
  else if b = 8 then "\\b"
  else if b = 12 then "\\f"
  else if b = 10 then "\\n"
  else if b = 13 then "\\r"
  else if b = 9 then "\\t"
  else if b.val < 32 ∨ b = 60 ∨ b = 62 ∨ b = 38 then
    "\\u00" ++ [hexDigit (b.val / 16), hexDigit (b.val % 16)]
  else [b]

/-- One turn of the loop of `appendString` at a position of the string: what is
written for the byte or rune there, and how many bytes the position advances by. A
byte that starts no well-formed encoding is written as the escape of U+FFFD; the
two line separators are escaped; any other rune is copied. -/
def escapeHead : GoString → GoString × Nat
  | [] => ([], 0)
  | b :: rest =>
    if b.val < 128 then (escapeByte b, 1)
    else
      match decodeRune (b :: rest) with
      | none => ("\\ufffd", 1)
      | some (c, size) =>
        if c = 8232 ∨ c = 8233 then ("\\u202" ++ [hexDigit (c % 16)], size)
        else ((b :: rest).take size, size)

/-- The loop of `appendString`; the first argument counts the bytes of the current
rune still to be passed over. -/
def appendRunes : Nat → GoString → GoString
  | _, [] => []
  | pending + 1, _ :: rest => appendRunes pending rest
  | 0, b :: rest =>
    (escapeHead (b :: rest)).1 ++ appendRunes ((escapeHead (b :: rest)).2 - 1) rest

/-- Modelled from the Go standard library (encoding/json, `appendString`): a string
as a JSON string literal. -/
def appendString (src : GoString) : GoString :=
  34 :: (appendRunes 0 src ++ [34])

/-- The members of an object after the first, each preceded by a comma. -/
def marshalRest : List (GoString × GoString) → GoString
  | [] => []
  | (k, v) :: kvs => 44 :: (appendString k ++ 58 :: (appendString v ++ marshalRest kvs))

/-- The text `json.Marshal` produces for a `map[string]string` whose entries are
listed in the encoder's (sorted) key order. -/
def marshalMembers : List (GoString × GoString) → GoString
  | [] => [123, 125]
  | (k, v) :: kvs =>
    123 :: (appendString k ++ 58 :: (appendString v ++ (marshalRest kvs ++ [125])))

/-- Byte slices. -/
abbrev Bytes := GoString

/-- `GetMessageBytes`: the map `vals` receives `"message"` and `"status"`, and is
marshalled; `"message"` sorts before `"status"`. The error of `Marshal` is
discarded by the source and cannot occur for a map of strings. -/
def GetMessageBytes (err : Error) : Bytes :=
  marshalMembers [("message", err.Message), ("status", "error")]

/-- The type `Level`, an `int`. -/
abbrev Level := Int

/-- Level info. -/
def Info : Level := 0

/-- Level warning. -/
def Warning : Level := 1

/-- Level severe. -/
def Severe : Level := 2

/-- Level fatal. -/
def Fatal : Level := 3

/-- Level panic. -/
def Panic : Level := 4

/-- Level trace. -/
def Trace : Level := 5

/-- Level debug. -/
def Debug : Level := 6

/-- The array `levels`. -/
def levels : List GoString := ["INFO", "WARNING", "SEVERE", "FATAL", "PANIC", "TRACE", "DEBUG"]

/-- Checks that a level indexes `levels`. -/
def isValidLevel (level : Level) : Bool :=
  if level < 0 ∨ level > 6 then false else true

/-- Method `String()` of `Level`. -/
def Level.String (level : Level) : GoString :=
  if isValidLevel level then levels.getD level.toNat "" else ""

/-! ## charon.go: data -/

/-- The type `map[string][]string` behind `http.Header` and `url.Values`. -/
abbrev Values := List (GoString × List GoString)

/-- A value stored in the body map (`interface{}`): what `encoding/json` decodes
into an `interface{}`, or the `[]string` stored for a query parameter. A number is
kept as its literal text. -/
inductive Value where
  | null
  | bool (b : Bool)
  | number (text : GoString)
  | str (s : GoString)
  | arr (items : List Value)
  | obj (members : List (GoString × Value))
  | strings (vs : List GoString)

/-- The body map, `map[string]interface{}`, as its entries. -/
abbrev BodyMap := List (GoString × Value)

/-- The assignment `body[k] = v` on a map. -/
def mapSet (m : BodyMap) (k : GoString) (v : Value) : BodyMap :=
  match m with
  | [] => [(k, v)]
  | (k1, v1) :: rest => if k1 = k then (k, v) :: rest else (k1, v1) :: mapSet rest k v

/-- A `context.Context`, identified by a tag. -/
structure Context where
  tag : Nat
  deriving DecidableEq, Repr

/-- A `*url.Userinfo`. -/
structure Userinfo where
  username : GoString
  password : Option GoString
  deriving DecidableEq, Repr

/-- The struct `RouteDetails`; `log` is the text held by the `strings.Builder`. -/
structure RouteDetails where
  method : GoString
  path : GoString
  headers : Values
  body : Option BodyMap
  ctx : Option Context
  log : GoString

/-- Method `Method()`. -/
def RouteDetails.Method (detail : RouteDetails) : GoString := detail.method

/-- Method `Path()`. -/
def RouteDetails.Path (detail : RouteDetails) : GoString := detail.path

/-- Method `Headers()`. -/
def RouteDetails.Headers (detail : RouteDetails) : Values := detail.headers

/-- Method `Body()`. -/
def RouteDetails.Body (detail : RouteDetails) : Option BodyMap := detail.body

/-- Method `Context()`. -/
def RouteDetails.Context (detail : RouteDetails) : Option Context := detail.ctx

/-- Method `WriteLog`: appends to the builder. -/
def RouteDetails.WriteLog (detail : RouteDetails) (logStr : GoString) : RouteDetails :=
  { detail with log := detail.log ++ logStr }

/-- Method `GetLog`. -/
def RouteDetails.GetLog (detail : RouteDetails) : GoString := detail.log

/-- The struct `PathDetail`. -/
structure PathDetail where
  Method : GoString
  PathRegex : GoString
  deriving DecidableEq, Repr

/-- The value a Go `panic` carries: a `string`, or a value of any other dynamic
type (an `error`, a `runtime.Error`, ...), with the name of that type. A nil panic
value is left out. -/
inductive PanicValue where
  | str (s : GoString)
  | other (typeName : GoString)
  deriving DecidableEq, Repr

/-- The result of calling a function that may panic. -/
inductive Outcome (α : Type) where
  | ret (a : α)
  | panicked (v : PanicValue)

/-- The interface `RouteHandler`. `IsAuthenticated` receives the request's context
and header; `IsValidInput` receives a copy of the route details; `HandleCall`
receives the pointer, through which it can only append to the log (the fields are
unexported), so it returns the text it appended along with its result. -/
structure RouteHandler where
  IsAuthenticated : Context → Values → Outcome (Option Context × Option Userinfo × Option Error)
  IsValidInput : RouteDetails → Outcome (Option Error)
  HandleCall : RouteDetails → GoString × Outcome (Option Bytes × Option Error)

/-- The type `ResponseHandler`: called with the body and the error, it returns
normally (`none`) or panics. What it does to the `http.ResponseWriter` is its own
business and is not recorded. -/
abbrev ResponseHandler := Option Bytes → Option Error → Option PanicValue

/-- The three operations of a handler. -/
inductive Stage where
  | IsAuthenticated | IsValidInput | HandleCall
  deriving DecidableEq, Repr

/-- What a run does, as seen from outside. -/
inductive Event where
  /-- A stage of a handler is called. -/
  | stage (handler : RouteHandler) (s : Stage)
  /-- The logger hands a text to the log sink (`Logger.log`). -/
  | flush (text : GoString)
  /-- The response writer `handleResponse` is called with a body and an error. -/
  | respond (body : Option Bytes) (err : Option Error)
  /-- The configured `ResponseHandler` is called. -/
  | custom (body : Option Bytes) (err : Option Error)
  /-- The default writer calls `resp.Header().Set` with the key and the value. -/
  | setHeader (key value : GoString)
  /-- The default writer calls `resp.WriteHeader` with the code, and the call
  returns. -/
  | writeHeader (code : Int)
  /-- The default writer calls `resp.Write` with the data. -/
  | write (data : Option Bytes)

/-- The `*http.Request`, reduced to what `ServeRequest` and `HandleRequest` read:
`Method`, `URL.Path`, `Header`, `URL.Query()`, `URL.User`, `Context()`, and what
`json.NewDecoder(req.Body).Decode(&body)` does: the value it leaves in `body` and
the text of the error it returns, if any. -/
structure Request where
  Method : GoString
  Path : GoString
  Header : Values
  Query : Values
  User : Option Userinfo
  ctx : Context
  decodedBody : Option BodyMap
  decodeErr : Option GoString

/-! ## logger/logger.go -/

/-- The `Logger`, reduced to what `Log` renders into a line besides its arguments:
the result of `getTime(time.Now())`, the file and line of `runtime.Caller(2)`, and
the text of `debug.Stack()`. One reading of each stands for all the calls of a
request. The fields that select the output file are left out: delivery to the
sink is the event `flush`. The `*Logger` of a server is taken to be not nil. -/
structure Logger where
  time : GoString
  file : GoString
  line : Nat
  stack : GoString

/-- Method `Log`, for a writer that is not nil and no fields (every call in
`charon.go` passes `nil` fields and `&rDetails`). -/
def Logger.Log (logger : Logger) (level : Level) (message : GoString) (trace : GoString)
    (writer : RouteDetails) : RouteDetails :=
  writer.WriteLog (Level.String level ++ "   " ++ logger.time ++ "   " ++ logger.file ++ ":"
    ++ toString logger.line ++ "\t" ++ message ++ "   " ++ trace ++ "   " ++ "" ++ "\n")

/-- Method `LogInfo`. -/
def Logger.LogInfo (logger : Logger) (message : GoString) (writer : RouteDetails) : RouteDetails :=
  logger.Log Info message "" writer

/-- Method `LogSevere`. -/
def Logger.LogSevere (logger : Logger) (message : GoString) (writer : RouteDetails) :
    RouteDetails :=
  logger.Log Severe message "" writer

/-- Method `LogPanic`: the trace is the stack. -/
def Logger.LogPanic (logger : Logger) (message : GoString) (writer : RouteDetails) :
    RouteDetails :=
  logger.Log Panic message logger.stack writer

/-- Method `LogWithReader`: hands the reader's log to the sink. -/
def Logger.LogWithReader (_logger : Logger) (reader : RouteDetails) : List Event :=
  [Event.flush reader.GetLog]

/-! ## charon.go: functions -/

/-- The struct `charonServerHandler`; `pathHandlers` lists the entries of the map in
the order in which the `range` loop of the run visits them. A Go map holds each key
once. -/
structure charonServerHandler where
  logger : Logger
  respHandler : Option ResponseHandler
  pathHandlers : List (PathDetail × RouteHandler)

/-- The state of a call of `HandleRequest` when it ends: the route details behind
the pointer, the events of the call, and the returned pair or the panic. -/
structure Handled where
  rDetails : RouteDetails
  events : List Event
  out : Outcome (Option Bytes × Option Error)

/-- Lines 192-197 of `HandleRequest`: the request after a successful
authentication, with the new context when one is returned and the user
information when one is returned. -/
def authenticatedRequest (req : Request) (ctx : Option Context) (userInfo : Option Userinfo) :
    Request :=
  let req1 := match ctx with
    | some c => { req with ctx := c }
    | none => req
  match userInfo with
  | some u => { req1 with User := some u }
  | none => req1

/-- Function `HandleRequest`. -/
def HandleRequest (handler : RouteHandler) (rDetails : RouteDetails) (req : Request) : Handled :=
  match handler.IsAuthenticated req.ctx req.Header with
  | .panicked v => ⟨rDetails, [.stage handler .IsAuthenticated], .panicked v⟩
  | .ret (_, _, some auErr) =>
    ⟨rDetails, [.stage handler .IsAuthenticated], .ret (none, some auErr)⟩
  | .ret (ctx, userInfo, none) =>
    let req1 := authenticatedRequest req ctx userInfo
    let rDetails1 := { rDetails with ctx := some req1.ctx }
    match handler.IsValidInput rDetails1 with
    | .panicked v =>
      ⟨rDetails1, [.stage handler .IsAuthenticated, .stage handler .IsValidInput], .panicked v⟩
    | .ret (some authError) =>
      ⟨rDetails1, [.stage handler .IsAuthenticated, .stage handler .IsValidInput],
        .ret (none, some authError)⟩
    | .ret none =>
      ⟨rDetails1.WriteLog (handler.HandleCall rDetails1).1,
        [.stage handler .IsAuthenticated, .stage handler .IsValidInput,
          .stage handler .HandleCall],
        (handler.HandleCall rDetails1).2⟩

/-- Modelled from the Go standard library (net/http, `checkWriteHeaderCode`): the
`WriteHeader` of the server's `http.ResponseWriter` panics, with a string, when the
code is outside 100..999, before anything is written. -/
def writeHeaderPanic (code : Int) : Option PanicValue :=
  if code < 100 ∨ code > 999 then
    some (.str ("invalid WriteHeader code " ++ toString code))
  else none

/-- Function `handleResponse`: the events of the call, and the panic that ends it, if
any: that of the configured handler, or that of `resp.WriteHeader` at line 220, after
which line 226 is not reached. -/
def handleResponse (writableResp : Option Bytes) (err : Option Error)
    (respHandler : Option ResponseHandler) : List Event × Option PanicValue :=
  match respHandler with
  | some f => ([.respond writableResp err, .custom writableResp err], f writableResp err)
  | none =>
    match err with
    | some e =>
      match writeHeaderPanic e.StatusCode with
      | some v =>
        ([.respond writableResp err, .setHeader "Content-Type" "application/json"], some v)
      | none =>
        ([.respond writableResp err, .setHeader "Content-Type" "application/json",
          .writeHeader e.StatusCode, .write (some (GetMessageBytes e))], none)
    | none =>
      ([.respond writableResp err, .setHeader "Content-Type" "application/json",
        .writeHeader 200, .write writableResp], none)

/-- Function `handleLog`. -/
def handleLog (reader : RouteDetails) (logger : Logger) : List Event :=
  logger.LogWithReader reader

/-- The state of `ServeRequest` at a point of its run: the local `rDetails`, the
events so far, and the panic in flight, if any. -/
structure Served where
  rDetails : RouteDetails
  events : List Event
  panic : Option PanicValue

/-- The `range` loop of lines 77-89 up to its `break`: the handler of the first
entry visited whose key equals the path and method of the request. -/
def matchingHandler (rDetails : RouteDetails) : List (PathDetail × RouteHandler) →
    Option RouteHandler
  | [] => none
  | (pDetail, handler) :: rest =>
    if pDetail.PathRegex = rDetails.Path ∧ rDetails.Method = pDetail.Method then some handler
    else matchingHandler rDetails rest

/-- Lines 76-97 of `ServeRequest` when `isServed` is false: the route lookup, and
the branch taken when a key matches or when none does. -/
def lookupAndServe (serverHandler : charonServerHandler) (req : Request)
    (rDetails : RouteDetails) : Served :=
  match matchingHandler rDetails serverHandler.pathHandlers with
  | some handler =>
    let r := HandleRequest handler rDetails req
    match r.out with
    | .panicked v => ⟨r.rDetails, r.events, some v⟩
    | .ret (handledResp, err) =>
      let rDetails1 := match err with
        | some e => serverHandler.logger.LogSevere ("Error:  " ++ e.Error) r.rDetails
        | none => r.rDetails
      ⟨rDetails1,
        r.events ++ handleLog rDetails1 serverHandler.logger
          ++ (handleResponse handledResp err serverHandler.respHandler).1,
        (handleResponse handledResp err serverHandler.respHandler).2⟩
  | none =>
    let rDetails1 := serverHandler.logger.LogSevere "Path not found" rDetails
    let err := Error.AuthenticationError "Path not found" "Path not found"
    ⟨rDetails1,
      handleLog rDetails1 serverHandler.logger
        ++ (handleResponse none (some err) serverHandler.respHandler).1,
      (handleResponse none (some err) serverHandler.respHandler).2⟩

/-- Lines 49-97 of `ServeRequest`: the body of the function after the deferred
function is installed, up to its return or to the first panic. -/
def serveBody (serverHandler : charonServerHandler) (req : Request) (rDetails : RouteDetails) :
    Served :=
  if req.Method = "GET" then
    lookupAndServe serverHandler req
      { rDetails with
        body := some (req.Query.foldl (fun body kv => mapSet body kv.1 (.strings kv.2)) []) }
  else
    match req.decodeErr with
    | none => lookupAndServe serverHandler req { rDetails with body := req.decodedBody }
    | some text =>
      if text = "EOF" then lookupAndServe serverHandler req { rDetails with body := none }
      else
        let rDetails1 := serverHandler.logger.LogSevere ("Error:  " ++ text) rDetails
        let err := Error.InternalError "" text
        match (handleResponse none (some err) serverHandler.respHandler).2 with
        | some v =>
          ⟨rDetails1,
            handleLog rDetails1 serverHandler.logger
              ++ (handleResponse none (some err) serverHandler.respHandler).1,
            some v⟩
        | none =>
          ⟨{ rDetails1 with body := req.decodedBody },
            handleLog rDetails1 serverHandler.logger
              ++ (handleResponse none (some err) serverHandler.respHandler).1,
            none⟩

/-- The deferred function of lines 39-47, run when the body ends. With no panic in
flight it does nothing. Otherwise `r.(string)` is evaluated first: when the panic
value is not a string the assertion itself panics and that panic leaves
`ServeRequest`; when it is a string, the panic is logged, the log is handed to the
sink and the response writer is called, which may panic in turn. -/
def deferredRecover (serverHandler : charonServerHandler) (run : Served) : Served :=
  match run.panic with
  | none => run
  | some (.other _) => { run with panic := some (.other "*runtime.TypeAssertionError") }
  | some (.str r) =>
    let rDetails1 := serverHandler.logger.LogPanic r run.rDetails
    let err := Error.InternalError "" "Unknown server error"
    ⟨rDetails1,
      run.events ++ handleLog rDetails1 serverHandler.logger
        ++ (handleResponse none (some err) serverHandler.respHandler).1,
      (handleResponse none (some err) serverHandler.respHandler).2⟩

/-- Method `ServeRequest`. The result holds the events of the run and, in `panic`,
the panic that leaves the method, if any. -/
def ServeRequest (serverHandler : charonServerHandler) (req : Request) : Served :=
  let path := req.Path
  let method := req.Method
  let header := req.Header
  let rDetails : RouteDetails := ⟨method, path, header, none, none, ""⟩
  deferredRecover serverHandler
    (serveBody serverHandler req
      (serverHandler.logger.LogInfo ("Incoming Request  " ++ method ++ " : " ++ path) rDetails))

/-! ## Observations on a run -/

/-- The texts handed to the log sink, in order. -/
def flushes : List Event → List GoString
  | [] => []
  | .flush text :: es => text :: flushes es
  | _ :: es => flushes es

/-- The calls of the response writer, in order, each with its body and error. -/
def responses : List Event → List (Option Bytes × Option Error)
  | [] => []
  | .respond body err :: es => (body, err) :: responses es
  | _ :: es => responses es

/-- The stage calls, in order, each with the handler it belongs to. -/
def stageCalls : List Event → List (RouteHandler × Stage)
  | [] => []
  | .stage h s :: es => (h, s) :: stageCalls es
  | _ :: es => stageCalls es

/-- The stages called, in order. -/
def stagesRun (es : List Event) : List Stage :=
  (stageCalls es).map Prod.snd

/-- What the default writer does to the `http.ResponseWriter`, in order. -/
def wire : List Event → List Event
  | [] => []
  | .setHeader k v :: es => .setHeader k v :: wire es
  | .writeHeader c :: es => .writeHeader c :: wire es
  | .write d :: es => .write d :: wire es
  | _ :: es => wire es

/-! ## Sample inputs -/

/-- A logger with fixed readings. -/
def sampleLogger : Logger :=
  ⟨"2020-01-02 03:04:05", "charon.go", 37, "goroutine 1 [running]:"⟩

/-- A handler whose three stages succeed; `HandleCall` returns the given body. -/
def acceptingHandler (body : Bytes) : RouteHandler :=
  ⟨fun _ _ => .ret (none, none, none), fun _ => .ret none,
    fun _ => ("", .ret (some body, none))⟩

/-- A handler whose `IsAuthenticated` returns an error. -/
def rejectingAuth : RouteHandler :=
  ⟨fun _ _ => .ret (none, none, some (.AuthenticationError "" "bad token")),
    fun _ => .ret none, fun _ => ("", .ret (some (utf8 "[]"), none))⟩

/-- A handler whose `IsValidInput` returns an error. -/
def rejectingInput : RouteHandler :=
  ⟨fun _ _ => .ret (none, none, none),
    fun _ => .ret (some (.InvalidInputError "" "name missing")),
    fun _ => ("", .ret (some (utf8 "[]"), none))⟩

/-- A handler whose `HandleCall` panics with the given value. -/
def panickingHandler (v : PanicValue) : RouteHandler :=
  ⟨fun _ _ => .ret (none, none, none), fun _ => .ret none, fun _ => ("", .panicked v)⟩

/-- A request with the given method and path, no query, and a body that decodes to
an empty object. -/
def sampleRequest (method path : GoString) : Request :=
  ⟨method, path, [], [], none, ⟨0⟩, some [], none⟩

/-- A `POST` whose body is cut short, so that `Decode` fails. -/
def malformedRequest : Request :=
  ⟨"POST", "/widgets", [], [], none, ⟨0⟩, some [], some (utf8 "unexpected EOF")⟩

/-- A response handler that writes errors but panics, with a string, when it is
given a body and no error. -/
def failingResponder : ResponseHandler :=
  fun _ err => if err.isNone then some (.str "cannot encode body") else none

/-- The route details a caller of `HandleRequest` holds for `POST /widgets`. -/
def widgetDetails : RouteDetails :=
  ⟨"POST", "/widgets", [], none, none, ""⟩

/-- A server with one route, `POST /widgets`, and the default response writer. -/
def widgetServer : charonServerHandler :=
  ⟨sampleLogger, none, [(⟨"POST", "/widgets"⟩, acceptingHandler "\x7b\"id\":1\x7d")]⟩

/-- The same route with a handler whose `HandleCall` panics with an `error`. -/
def errorPanicServer : charonServerHandler :=
  ⟨sampleLogger, none,
    [(⟨"POST", "/widgets"⟩, panickingHandler (.other "*errors.errorString"))]⟩

/-- The same route with a handler whose `HandleCall` panics with a string. -/
def stringPanicServer : charonServerHandler :=
  ⟨sampleLogger, none, [(⟨"POST", "/widgets"⟩, panickingHandler (.str "boom"))]⟩

/-- The server of `widgetServer` with `failingResponder` as its response handler. -/
def failingResponderServer : charonServerHandler :=
  ⟨sampleLogger, some failingResponder,
    [(⟨"POST", "/widgets"⟩, acceptingHandler "\x7b\"id\":1\x7d")]⟩

/-- A `GET` with two query parameters, one of them with two values. -/
def queryRequest : Request :=
  ⟨"GET", "/widgets", [], [("page", ["1"]), ("tag", ["a", "b"])], none, ⟨0⟩, some [], none⟩

/-- A `POST` with an empty body: `Decode` returns the end-of-stream error. -/
def emptyBodyRequest : Request :=
  ⟨"POST", "/widgets", [], [], none, ⟨0⟩, some [], some (utf8 "EOF")⟩

/-- A handler whose `IsAuthenticated` returns a new context, and whose `HandleCall`
reports whether that context is the one it finds in the route details. -/
def enrichingHandler : RouteHandler :=
  ⟨fun _ _ => .ret (some ⟨7⟩, none, none), fun _ => .ret none,
    fun rd => ("", .ret (some (if rd.ctx = some ⟨7⟩ then "seen" else "missed"), none))⟩

/-! ## Theorems -/

/-! ### The JSON reader inverts the encoder on well-formed strings -/

/-- The bytes of the escape of U+FFFD. -/
theorem utf8_lit_ufffd : (utf8 "\\ufffd") = [92, 117, 102, 102, 102, 100] := by decide

/-- Stage calls of a concatenation. -/
theorem stageCalls_append (a b : List Event) :
    stageCalls (a ++ b) = stageCalls a ++ stageCalls b := by
  induction a with
  | nil => rfl
  | cons e a ih => cases e <;> simp [stageCalls, ih]

/-- Responses of a concatenation. -/
theorem responses_append (a b : List Event) : responses (a ++ b) = responses a ++ responses b := by
  induction a with
  | nil => rfl
  | cons e a ih => cases e <;> simp [responses, ih]

/-- Flushes of a concatenation. -/
theorem flushes_append (a b : List Event) : flushes (a ++ b) = flushes a ++ flushes b := by
  induction a with
  | nil => rfl
  | cons e a ih => cases e <;> simp [flushes, ih]

/-- Default-writer operations of a concatenation. -/
theorem wire_append (a b : List Event) : wire (a ++ b) = wire a ++ wire b := by
  induction a with
  | nil => rfl
  | cons e a ih => cases e <;> simp [wire, ih]

/-- The response writer calls no stage. -/
theorem stageCalls_handleResponse (body : Option Bytes) (err : Option Error)
    (rh : Option ResponseHandler) : stageCalls (handleResponse body err rh).1 = [] := by
  unfold handleResponse
  cases rh with
  | some f => rfl
  | none =>
    cases err with
    | none => rfl
    | some e =>
      dsimp only
      cases writeHeaderPanic e.StatusCode <;> rfl

/-- Flushing the log calls no stage. -/
theorem stageCalls_handleLog (rd : RouteDetails) (lg : Logger) : stageCalls (handleLog rd lg) = [] :=
  rfl

/-- Every stage call of `HandleRequest` belongs to the handler it was given. -/
theorem stageCalls_HandleRequest (h : RouteHandler) (rd : RouteDetails) (req : Request) :
    ∀ c ∈ stageCalls (HandleRequest h rd req).events, c.1 = h := by
  unfold HandleRequest
  split
  · simp [stageCalls]
  · simp [stageCalls]
  · dsimp only
    split <;> simp [stageCalls]

/-- In a table with distinct keys, the loop finds the handler registered under the key
of the request. -/
theorem matchingHandler_of_mem (rd : RouteDetails) (h : RouteHandler) :
    ∀ tbl : List (PathDetail × RouteHandler), (tbl.map Prod.fst).Nodup →
      (⟨rd.method, rd.path⟩, h) ∈ tbl → matchingHandler rd tbl = some h := by
  intro tbl
  induction tbl with
  | nil => intro _ hm; simp at hm
  | cons e tbl ih =>
    intro hnd hm
    obtain ⟨pd, h1⟩ := e
    simp only [List.map_cons, List.nodup_cons, List.mem_map, not_exists, not_and] at hnd
    simp only [matchingHandler, RouteDetails.Path, RouteDetails.Method]
    rcases List.mem_cons.mp hm with heq | hin
    · have h1e : (⟨rd.method, rd.path⟩ : PathDetail) = pd := congrArg Prod.fst heq
      have h2e : h = h1 := congrArg Prod.snd heq
      subst h1e h2e
      simp
    · have hne : ¬ (pd.PathRegex = rd.path ∧ rd.method = pd.Method) := by
        rintro ⟨hp, hmm⟩
        apply hnd.1 (⟨rd.method, rd.path⟩, h) hin
        cases pd
        simp_all
      rw [if_neg hne]
      exact ih hnd.2 hin

/-- When the table has no entry under the key of the request, the loop finds nothing. -/
theorem matchingHandler_none (rd : RouteDetails) :
    ∀ tbl : List (PathDetail × RouteHandler),
      (∀ h, (⟨rd.method, rd.path⟩, h) ∉ tbl) → matchingHandler rd tbl = none := by
  intro tbl
  induction tbl with
  | nil => intro _; rfl
  | cons e tbl ih =>
    intro hno
    obtain ⟨pd, h1⟩ := e
    simp only [matchingHandler, RouteDetails.Path, RouteDetails.Method]
    have hne : ¬ (pd.PathRegex = rd.path ∧ rd.method = pd.Method) := by
      rintro ⟨hp, hmm⟩
      apply hno h1
      cases pd
      simp_all
    rw [if_neg hne]
    exact ih fun h hin => hno h (List.mem_cons_of_mem _ hin)

/-- The deferred function calls no stage. -/
theorem stageCalls_deferredRecover (sh : charonServerHandler) (run : Served) :
    stageCalls (deferredRecover sh run).events = stageCalls run.events := by
  unfold deferredRecover
  split
  · rfl
  · rfl
  · simp [stageCalls_append, stageCalls_handleResponse, stageCalls_handleLog]

/-- When the loop finds a handler, the stage calls are those of `HandleRequest` on it.
-/
theorem stageCalls_lookupAndServe_some (sh : charonServerHandler) (req : Request)
    (rd : RouteDetails) (h : RouteHandler) (hm : matchingHandler rd sh.pathHandlers = some h) :
    stageCalls (lookupAndServe sh req rd).events = stageCalls (HandleRequest h rd req).events := by
  unfold lookupAndServe
  rw [hm]
  dsimp only
  split
  · rfl
  · simp [stageCalls_append, stageCalls_handleResponse, stageCalls_handleLog]

/-- A `GET`, a body decoded without error and an empty body all reach the route lookup.
-/
theorem serveBody_reaches_lookup (sh : charonServerHandler) (req : Request) (rd : RouteDetails)
    (hparse : req.Method = "GET" ∨ req.decodeErr = none ∨ req.decodeErr = some (utf8 "EOF")) :
    ∃ body, serveBody sh req rd = lookupAndServe sh req { rd with body := body } := by
  unfold serveBody
  by_cases hg : req.Method = "GET"
  · rw [if_pos hg]; exact ⟨_, rfl⟩
  · rw [if_neg hg]
    rcases hparse with h | h | h
    · exact absurd h hg
    · rw [h]; exact ⟨_, rfl⟩
    · rw [h]; simp only [if_true]; exact ⟨_, rfl⟩

/-- The pipeline starts with `IsAuthenticated`. -/
theorem head_stageCalls_HandleRequest (h : RouteHandler) (rd : RouteDetails) (req : Request) :
    (stageCalls (HandleRequest h rd req).events).head? = some (h, .IsAuthenticated) := by
  unfold HandleRequest
  split
  · rfl
  · rfl
  · dsimp only
    split <;> rfl

/-- The run when the loop finds nothing. -/
theorem notFound_run (sh : charonServerHandler) (req : Request) (rd : RouteDetails)
    (hm : matchingHandler rd sh.pathHandlers = none) :
    stageCalls (deferredRecover sh (lookupAndServe sh req rd)).events = [] ∧
    (responses (deferredRecover sh (lookupAndServe sh req rd)).events).head? =
      some (none, some (Error.AuthenticationError "Path not found" "Path not found")) ∧
    (sh.respHandler = none →
      responses (deferredRecover sh (lookupAndServe sh req rd)).events =
        [(none, some (Error.AuthenticationError "Path not found" "Path not found"))] ∧
      wire (deferredRecover sh (lookupAndServe sh req rd)).events =
        [.setHeader "Content-Type" "application/json", .writeHeader 403,
          .write (some (utf8 "\x7b\"message\":\"Path not found\",\"status\":\"error\"\x7d"))]) := by
  have hl : lookupAndServe sh req rd =
      ⟨sh.logger.LogSevere "Path not found" rd,
        handleLog (sh.logger.LogSevere "Path not found" rd) sh.logger
          ++ (handleResponse none
            (some (Error.AuthenticationError "Path not found" "Path not found")) sh.respHandler).1,
        (handleResponse none
            (some (Error.AuthenticationError "Path not found" "Path not found")) sh.respHandler).2⟩ := by
    unfold lookupAndServe
    rw [hm]
  refine ⟨?_, ?_, ?_⟩
  · rw [stageCalls_deferredRecover, hl]
    simp [stageCalls_append, stageCalls_handleResponse, stageCalls_handleLog]
  · rw [hl]
    cases hr : sh.respHandler with
    | none => rfl
    | some f =>
      unfold deferredRecover
      cases hf : f none (some (Error.AuthenticationError "Path not found" "Path not found")) with
      | none => simp [handleResponse, hf, handleLog, Logger.LogWithReader, responses]
      | some v =>
        cases v <;>
          simp [handleResponse, hf, handleLog, Logger.LogWithReader, responses, responses_append]
  · intro hr
    rw [hl, hr]
    exact ⟨rfl, rfl⟩

/-! ### Runs in which the response writer returns -/

/-- The response writer does not touch the log sink. -/
theorem flushes_handleResponse (body : Option Bytes) (err : Option Error)
    (rh : Option ResponseHandler) : flushes (handleResponse body err rh).1 = [] := by
  unfold handleResponse
  cases rh with
  | some f => rfl
  | none =>
    cases err with
    | none => rfl
    | some e =>
      dsimp only
      cases writeHeaderPanic e.StatusCode <;> rfl

/-- One call of `handleResponse` is one response, with the pair it was given. -/
theorem responses_handleResponse (body : Option Bytes) (err : Option Error)
    (rh : Option ResponseHandler) : responses (handleResponse body err rh).1 = [(body, err)] := by
  unfold handleResponse
  cases rh with
  | some f => rfl
  | none =>
    cases err with
    | none => rfl
    | some e =>
      dsimp only
      cases writeHeaderPanic e.StatusCode <;> rfl

/-- `resp.WriteHeader` takes a code in 100..999. -/
theorem writeHeaderPanic_none (code : Int) (hcode : 100 ≤ code ∧ code ≤ 999) :
    writeHeaderPanic code = none := by
  unfold writeHeaderPanic
  rw [if_neg (by omega)]

/-- `handleResponse` returns when the configured handler, if any, never panics and,
with none configured, the status code of the error, if any, is in 100..999. -/
theorem handleResponse_returns (body : Option Bytes) (err : Option Error)
    (rh : Option ResponseHandler) (hw : ∀ f, rh = some f → ∀ b e, f b e = none)
    (hcode : rh = none → ∀ e, err = some e → 100 ≤ e.StatusCode ∧ e.StatusCode ≤ 999) :
    (handleResponse body err rh).2 = none := by
  unfold handleResponse
  cases rh with
  | none =>
    cases err with
    | none => rfl
    | some e =>
      dsimp only
      rw [writeHeaderPanic_none _ (hcode rfl e rfl)]
  | some f => exact hw f rfl body err

/-- The status codes of the errors `ServeRequest` makes itself, 403 and 500, are
taken by `resp.WriteHeader`. -/
theorem handleResponse_returns_own (body : Option Bytes) (e : Error)
    (rh : Option ResponseHandler) (hw : ∀ f, rh = some f → ∀ b e, f b e = none)
    (he : e.StatusCode = 403 ∨ e.StatusCode = 500) :
    (handleResponse body (some e) rh).2 = none :=
  handleResponse_returns body (some e) rh hw fun _ e1 h1 => by
    cases h1
    omega

/-- `HandleRequest` does not touch the log sink. -/
theorem flushes_HandleRequest (h : RouteHandler) (rd : RouteDetails) (req : Request) :
    flushes (HandleRequest h rd req).events = [] := by
  unfold HandleRequest
  split
  · rfl
  · rfl
  · dsimp only
    split <;> rfl

/-- `HandleRequest` does not call the response writer. -/
theorem responses_HandleRequest (h : RouteHandler) (rd : RouteDetails) (req : Request) :
    responses (HandleRequest h rd req).events = [] := by
  unfold HandleRequest
  split
  · rfl
  · rfl
  · dsimp only
    split <;> rfl

/-- A handler found by the loop is registered in the table. -/
theorem matchingHandler_mem (rd : RouteDetails) (h : RouteHandler) :
    ∀ tbl : List (PathDetail × RouteHandler), matchingHandler rd tbl = some h →
      ∃ k, (k, h) ∈ tbl := by
  intro tbl
  induction tbl with
  | nil => intro hm; simp [matchingHandler] at hm
  | cons e tbl ih =>
    obtain ⟨pd, h1⟩ := e
    intro hm
    simp only [matchingHandler] at hm
    split_ifs at hm with hc
    · cases hm
      exact ⟨pd, List.mem_cons_self _ _⟩
    · obtain ⟨k, hk⟩ := ih hm
      exact ⟨k, List.mem_cons_of_mem _ hk⟩

/-- From the route lookup on: one flush, one response and no escaping panic, when the
response writer returns and no stage panics with a value that is not a string. -/
theorem once_lookupAndServe (sh : charonServerHandler) (req : Request) (rd : RouteDetails)
    (hw : ∀ f, sh.respHandler = some f → ∀ b e, f b e = none)
    (hcode : sh.respHandler = none → ∀ kh ∈ sh.pathHandlers, ∀ rd1 b e,
      (HandleRequest kh.2 rd1 req).out = .ret (b, some e) →
        100 ≤ e.StatusCode ∧ e.StatusCode ≤ 999)
    (hs : ∀ kh ∈ sh.pathHandlers, ∀ rd1 t,
      (HandleRequest kh.2 rd1 req).out ≠ .panicked (.other t)) :
    (flushes (deferredRecover sh (lookupAndServe sh req rd)).events).length = 1 ∧
    (responses (deferredRecover sh (lookupAndServe sh req rd)).events).length = 1 ∧
    (deferredRecover sh (lookupAndServe sh req rd)).panic = none := by
  have hnf := handleResponse_returns_own none
    (Error.AuthenticationError "Path not found" "Path not found") sh.respHandler hw
    (Or.inl rfl)
  have hrec := handleResponse_returns_own none
    (Error.InternalError "" "Unknown server error") sh.respHandler hw (Or.inr rfl)
  unfold lookupAndServe
  cases hm : matchingHandler rd sh.pathHandlers with
  | none =>
    simp [deferredRecover, hnf, flushes_append, responses_append,
      flushes_handleResponse, responses_handleResponse, handleLog, Logger.LogWithReader,
      flushes, responses]
  | some h =>
    obtain ⟨k, hk⟩ := matchingHandler_mem rd h _ hm
    have hno := hs (k, h) hk rd
    dsimp only
    cases ho : (HandleRequest h rd req).out with
    | panicked v =>
      cases v with
      | other t => exact absurd ho (hno t)
      | str s =>
        simp [deferredRecover, hrec, flushes_append,
          responses_append, flushes_handleResponse, responses_handleResponse, handleLog,
          Logger.LogWithReader, flushes, responses, flushes_HandleRequest,
          responses_HandleRequest]
    | ret p =>
      obtain ⟨b, e⟩ := p
      have hret := handleResponse_returns b e sh.respHandler hw
        fun hr e1 he1 => hcode hr (k, h) hk rd b e1 (he1 ▸ ho)
      simp [deferredRecover, hret, flushes_append,
        responses_append, flushes_handleResponse, responses_handleResponse, handleLog,
        Logger.LogWithReader, flushes, responses, flushes_HandleRequest,
        responses_HandleRequest]

/-- On every run in which the response writer returns (the configured handler, if
any, never panics; with none configured, the errors the handlers return carry a
status code in 100..999) and no stage panics with a value that is not a string, the
log is handed to the sink once, the response writer is called once, and no panic
leaves `ServeRequest`. -/
theorem ServeRequest_once_when_writer_returns (sh : charonServerHandler) (req : Request)
    (hw : ∀ f, sh.respHandler = some f → ∀ b e, f b e = none)
    (hcode : sh.respHandler = none → ∀ kh ∈ sh.pathHandlers, ∀ rd1 b e,
      (HandleRequest kh.2 rd1 req).out = .ret (b, some e) →
        100 ≤ e.StatusCode ∧ e.StatusCode ≤ 999)
    (hs : ∀ kh ∈ sh.pathHandlers, ∀ rd1 t,
      (HandleRequest kh.2 rd1 req).out ≠ .panicked (.other t)) :
    (flushes (ServeRequest sh req).events).length = 1 ∧
    (responses (ServeRequest sh req).events).length = 1 ∧
    (ServeRequest sh req).panic = none := by
  have hrun : ServeRequest sh req = deferredRecover sh
      (serveBody sh req
        (sh.logger.LogInfo ("Incoming Request  " ++ req.Method ++ " : " ++ req.Path)
          ⟨req.Method, req.Path, req.Header, none, none, ""⟩)) := rfl
  rw [hrun]
  unfold serveBody
  split_ifs with hg
  · exact once_lookupAndServe sh req _ hw hcode hs
  · cases hd : req.decodeErr with
    | none => exact once_lookupAndServe sh req _ hw hcode hs
    | some text =>
      dsimp only
      split_ifs with he
      · exact once_lookupAndServe sh req _ hw hcode hs
      · have hdec := handleResponse_returns_own none (Error.InternalError "" text)
          sh.respHandler hw (Or.inr rfl)
        simp [deferredRecover, hdec, flushes_append,
          responses_append, flushes_handleResponse, responses_handleResponse, handleLog,
          Logger.LogWithReader, flushes, responses]

/-! ### Claims -/

/-- Claim C1: for every route table (a map: each key once) and every request that
reaches the route lookup (method `GET`, or a body that decodes without error, or
an empty body): if the table holds the key (request method, request path) with a
handler, the stage calls of the run are those of `HandleRequest` on that handler,
they begin with its `IsAuthenticated`, and every one of them belongs to that
handler; if the table holds no such key, no stage is called and the response
writer is called first with a nil body and the Authentication error "Path not
found" (message "Path not found", status 403), and the default writer sends
status 403 with the body `{"message":"Path not found","status":"error"}`. -/
theorem ServeRequest_routes (serverHandler : charonServerHandler) (req : Request)
    (hparse : req.Method = "GET" ∨ req.decodeErr = none ∨ req.decodeErr = some (utf8 "EOF"))
    (hkeys : (serverHandler.pathHandlers.map Prod.fst).Nodup) :
    (∀ handler, (⟨req.Method, req.Path⟩, handler) ∈ serverHandler.pathHandlers →
      (∃ rDetails : RouteDetails, rDetails.method = req.Method ∧ rDetails.path = req.Path ∧
        stageCalls (ServeRequest serverHandler req).events
          = stageCalls (HandleRequest handler rDetails req).events) ∧
      (stageCalls (ServeRequest serverHandler req).events).head? = some (handler, .IsAuthenticated) ∧
      ∀ c ∈ stageCalls (ServeRequest serverHandler req).events, c.1 = handler) ∧
    ((∀ handler, (⟨req.Method, req.Path⟩, handler) ∉ serverHandler.pathHandlers) →
      stageCalls (ServeRequest serverHandler req).events = [] ∧
      (responses (ServeRequest serverHandler req).events).head? =
        some (none, some (Error.AuthenticationError "Path not found" "Path not found")) ∧
      (Error.AuthenticationError "Path not found" "Path not found").Message = "Path not found" ∧
      (Error.AuthenticationError "Path not found" "Path not found").StatusCode = 403 ∧
      (serverHandler.respHandler = none →
        responses (ServeRequest serverHandler req).events =
          [(none, some (Error.AuthenticationError "Path not found" "Path not found"))] ∧
        wire (ServeRequest serverHandler req).events =
          [.setHeader "Content-Type" "application/json", .writeHeader 403,
            .write (some (utf8 "\x7b\"message\":\"Path not found\",\"status\":\"error\"\x7d"))])) := by
  obtain ⟨body, hb⟩ := serveBody_reaches_lookup serverHandler req
    (serverHandler.logger.LogInfo ("Incoming Request  " ++ req.Method ++ " : " ++ req.Path)
      ⟨req.Method, req.Path, req.Header, none, none, ""⟩) hparse
  have hrun : ServeRequest serverHandler req = deferredRecover serverHandler
      (serveBody serverHandler req
        (serverHandler.logger.LogInfo ("Incoming Request  " ++ req.Method ++ " : " ++ req.Path)
          ⟨req.Method, req.Path, req.Header, none, none, ""⟩)) := rfl
  rw [hrun, hb]
  generalize hrd : ({ serverHandler.logger.LogInfo
      ("Incoming Request  " ++ req.Method ++ " : " ++ req.Path)
      ⟨req.Method, req.Path, req.Header, none, none, ""⟩ with body := body } : RouteDetails) = rd
  have hmeth : rd.method = req.Method := by rw [← hrd]; rfl
  have hpath : rd.path = req.Path := by rw [← hrd]; rfl
  refine ⟨?_, ?_⟩
  · intro handler hmem
    rw [← hmeth, ← hpath] at hmem
    have hm := matchingHandler_of_mem rd handler serverHandler.pathHandlers hkeys hmem
    have hs := stageCalls_lookupAndServe_some serverHandler req rd handler hm
    rw [stageCalls_deferredRecover, hs]
    exact ⟨⟨rd, hmeth, hpath, rfl⟩, head_stageCalls_HandleRequest handler rd req,
      stageCalls_HandleRequest handler rd req⟩
  · intro hno
    have hm := matchingHandler_none rd serverHandler.pathHandlers
      (by rw [hmeth, hpath]; exact hno)
    obtain ⟨h1, h2, h3⟩ := notFound_run serverHandler req rd hm
    exact ⟨h1, h2, by decide, rfl, h3⟩

/-- The routing theorem at `POST /widgets` (registered) and `GET /unknown` (not
registered) on `widgetServer`. -/
theorem ServeRequest_routes_witness :
    (stageCalls (ServeRequest widgetServer (sampleRequest "POST" "/widgets")).events).head? =
      some (acceptingHandler "\x7b\"id\":1\x7d", .IsAuthenticated) ∧
    wire (ServeRequest widgetServer (sampleRequest "GET" "/unknown")).events =
      [.setHeader "Content-Type" "application/json", .writeHeader 403,
        .write (some (utf8 "\x7b\"message\":\"Path not found\",\"status\":\"error\"\x7d"))] :=
  ⟨((ServeRequest_routes widgetServer (sampleRequest "POST" "/widgets") (Or.inr (Or.inl rfl))
      (by decide)).1 _ (List.mem_singleton.mpr rfl)).2.1,
    (((ServeRequest_routes widgetServer (sampleRequest "GET" "/unknown") (Or.inl rfl)
      (by decide)).2 (fun _ hmem => absurd (congrArg (fun e => e.1.Method)
        (List.mem_singleton.mp hmem))
        (show utf8 "GET" ≠ utf8 "POST" by decide))).2.2.2.2 rfl).2⟩

/-- Claim C2, at a failing input: a handler whose `HandleCall` panics with an
`error` value. The deferred function panics at `r.(string)`: nothing is handed to
the log sink, the response writer is never called, and a panic leaves
`ServeRequest`. With a string panic value at the same place the run ends as the
claim says: one flush whose text ends with the PANIC entry, one response, status
500 with the generic message. -/
theorem ServeRequest_non_string_panic :
    (flushes (ServeRequest errorPanicServer (sampleRequest "POST" "/widgets")).events = [] ∧
      responses (ServeRequest errorPanicServer (sampleRequest "POST" "/widgets")).events = [] ∧
      (ServeRequest errorPanicServer (sampleRequest "POST" "/widgets")).panic =
        some (.other "*runtime.TypeAssertionError")) ∧
    (flushes (ServeRequest stringPanicServer (sampleRequest "POST" "/widgets")).events =
        [utf8 ("INFO   2020-01-02 03:04:05   charon.go:37\tIncoming Request  POST : /widgets      \n"
          ++ "PANIC   2020-01-02 03:04:05   charon.go:37\tboom   goroutine 1 [running]:   \n")] ∧
      responses (ServeRequest stringPanicServer (sampleRequest "POST" "/widgets")).events =
        [(none, some (.InternalError "" "Unknown server error"))] ∧
      wire (ServeRequest stringPanicServer (sampleRequest "POST" "/widgets")).events =
        [.setHeader "Content-Type" "application/json", .writeHeader 500,
          .write (some
            "\x7b\"message\":\"Internal Error, please contact admin\",\"status\":\"error\"\x7d")] ∧
      (ServeRequest stringPanicServer (sampleRequest "POST" "/widgets")).panic = none) := by
  exact ⟨⟨by decide, by decide, by decide⟩, by decide, by decide, rfl, by decide⟩

/-- Claim C3, at a failing input: the handler succeeds and the configured response
handler panics with a string when given the body. The log is handed to the sink
before the response writer is called and again by the deferred function: two
flushes in a run that returns normally. -/
theorem ServeRequest_flushes_twice :
    (flushes (ServeRequest failingResponderServer
      (sampleRequest "POST" "/widgets")).events).length = 2 ∧
    (ServeRequest failingResponderServer (sampleRequest "POST" "/widgets")).panic = none := by
  decide

/-- Claim C4: if `IsAuthenticated` returns an error, `HandleRequest` returns
`(nil, that error)` and the only stage called is `IsAuthenticated`; if
`IsAuthenticated` returns no error and `IsValidInput` (called on the route details
with the context set) returns an error, `HandleRequest` returns `(nil, that
error)` and the stages called are `IsAuthenticated` and `IsValidInput`, not
`HandleCall`. -/
theorem HandleRequest_short_circuit (handler : RouteHandler) (rDetails : RouteDetails)
    (req : Request) :
    (∀ ctx userInfo auErr,
      handler.IsAuthenticated req.ctx req.Header = .ret (ctx, userInfo, some auErr) →
      (HandleRequest handler rDetails req).out = .ret (none, some auErr) ∧
      (HandleRequest handler rDetails req).events = [.stage handler .IsAuthenticated]) ∧
    (∀ ctx userInfo authError,
      handler.IsAuthenticated req.ctx req.Header = .ret (ctx, userInfo, none) →
      handler.IsValidInput { rDetails with ctx := some (authenticatedRequest req ctx userInfo).ctx }
        = .ret (some authError) →
      (HandleRequest handler rDetails req).out = .ret (none, some authError) ∧
      (HandleRequest handler rDetails req).events =
        [.stage handler .IsAuthenticated, .stage handler .IsValidInput]) := by
  refine ⟨?_, ?_⟩
  · intro ctx userInfo auErr h
    unfold HandleRequest
    rw [h]
    exact ⟨rfl, rfl⟩
  · intro ctx userInfo authError h1 h2
    unfold HandleRequest
    rw [h1]
    dsimp only
    rw [h2]
    exact ⟨rfl, rfl⟩

/-- The short-circuit theorem on `rejectingAuth` and on `rejectingInput`. -/
theorem HandleRequest_short_circuit_witness :
    stagesRun (HandleRequest rejectingAuth widgetDetails
      (sampleRequest "POST" "/widgets")).events = [.IsAuthenticated] ∧
    stagesRun (HandleRequest rejectingInput widgetDetails
      (sampleRequest "POST" "/widgets")).events = [.IsAuthenticated, .IsValidInput] :=
  ⟨by rw [((HandleRequest_short_circuit rejectingAuth widgetDetails
      (sampleRequest "POST" "/widgets")).1 none none _ rfl).2]; rfl,
   by rw [((HandleRequest_short_circuit rejectingInput widgetDetails
      (sampleRequest "POST" "/widgets")).2 none none _ rfl rfl).2]; rfl⟩

/-- Claim C5: for a request whose method is not `GET` and whose body fails to
decode with an error whose text is not "EOF", the run does not depend on the route
table (no lookup), no stage is called, and the response writer is called first
with a nil body and the Internal error carrying the decoder's text, whose status
is 500 and whose message is the generic one; the default writer sends status 500
and the generic body, which does not contain the decoder's text. -/
theorem ServeRequest_decode_failure (serverHandler : charonServerHandler) (req : Request)
    (text : GoString) (hmethod : req.Method ≠ "GET") (herr : req.decodeErr = some text)
    (heof : text ≠ "EOF") :
    ServeRequest serverHandler req = ServeRequest { serverHandler with pathHandlers := [] } req ∧
    stageCalls (ServeRequest serverHandler req).events = [] ∧
    (responses (ServeRequest serverHandler req).events).head? =
      some (none, some (Error.InternalError "" text)) ∧
    (Error.InternalError "" text).StatusCode = 500 ∧
    (Error.InternalError "" text).Message = "Internal Error, please contact admin" ∧
    (serverHandler.respHandler = none →
      responses (ServeRequest serverHandler req).events =
        [(none, some (Error.InternalError "" text))] ∧
      wire (ServeRequest serverHandler req).events =
        [.setHeader "Content-Type" "application/json", .writeHeader 500,
          .write (some
            "\x7b\"message\":\"Internal Error, please contact admin\",\"status\":\"error\"\x7d")]) := by
  have hbody : ∀ (sh : charonServerHandler) (rd : RouteDetails), serveBody sh req rd =
      match (handleResponse none (some (Error.InternalError "" text)) sh.respHandler).2 with
      | some v =>
        ⟨sh.logger.LogSevere ("Error:  " ++ text) rd,
          handleLog (sh.logger.LogSevere ("Error:  " ++ text) rd) sh.logger
            ++ (handleResponse none (some (Error.InternalError "" text)) sh.respHandler).1,
          some v⟩
      | none =>
        ⟨{ sh.logger.LogSevere ("Error:  " ++ text) rd with body := req.decodedBody },
          handleLog (sh.logger.LogSevere ("Error:  " ++ text) rd) sh.logger
            ++ (handleResponse none (some (Error.InternalError "" text)) sh.respHandler).1,
          none⟩ := by
    intro sh rd
    unfold serveBody
    rw [if_neg hmethod, herr]
    simp only [if_neg heof]
  have hrun : ∀ sh : charonServerHandler, ServeRequest sh req = deferredRecover sh
      (serveBody sh req
        (sh.logger.LogInfo ("Incoming Request  " ++ req.Method ++ " : " ++ req.Path)
          ⟨req.Method, req.Path, req.Header, none, none, ""⟩)) := fun _ => rfl
  refine ⟨?_, ?_, ?_, rfl, rfl, ?_⟩
  · rw [hrun, hrun, hbody, hbody]
    rfl
  · rw [hrun, stageCalls_deferredRecover, hbody]
    split <;> simp [stageCalls_append, stageCalls_handleResponse, stageCalls_handleLog]
  · rw [hrun, hbody]
    cases hr : serverHandler.respHandler with
    | none => rfl
    | some f =>
      unfold deferredRecover
      cases hf : f none (some (Error.InternalError "" text)) with
      | none => simp [handleResponse, hf, handleLog, Logger.LogWithReader, responses]
      | some v =>
        cases v <;>
          simp [handleResponse, hf, handleLog, Logger.LogWithReader, responses, responses_append]
  · intro hr
    rw [hrun, hbody, hr]
    exact ⟨rfl, rfl⟩

/-- The decode-failure theorem on `malformedRequest`. -/
theorem ServeRequest_decode_failure_witness :
    wire (ServeRequest widgetServer malformedRequest).events =
      [.setHeader "Content-Type" "application/json", .writeHeader 500,
        .write (some
          "\x7b\"message\":\"Internal Error, please contact admin\",\"status\":\"error\"\x7d")] :=
  ((ServeRequest_decode_failure widgetServer malformedRequest _ (by decide) rfl
    (by decide)).2.2.2.2.2 rfl).2

/-- Claim C6, as stated, fails: two Authentication errors with the same (empty)
`Mess` and the same status that differ only in `Err` give different bodies. -/
theorem GetMessageBytes_reveals_Err :
    (Error.AuthenticationError "" "token expired").variant =
      (Error.AuthenticationError "" "user unknown").variant ∧
    (Error.AuthenticationError "" "token expired").Mess =
      (Error.AuthenticationError "" "user unknown").Mess ∧
    (Error.AuthenticationError "" "token expired").StatusCode =
      (Error.AuthenticationError "" "user unknown").StatusCode ∧
    GetMessageBytes (Error.AuthenticationError "" "token expired") ≠
      GetMessageBytes (Error.AuthenticationError "" "user unknown") := by
  decide

/-- Claim C6, amended: two error values of the same variant with the same `Mess`
give the same body whatever their `Err`, provided `Mess` is not empty or the
variant is Internal, InvalidMethod or CustomStatus. -/
theorem GetMessageBytes_independent_of_Err (e1 e2 : Error)
    (hvariant : e1.variant = e2.variant) (hmess : e1.Mess = e2.Mess)
    (hsafe : e1.Mess ≠ "" ∨ e1.variant = .Internal ∨ e1.variant = .InvalidMethod ∨
      e1.variant = .CustomStatus) :
    GetMessageBytes e1 = GetMessageBytes e2 := by
  have hmsg : e1.Message = e2.Message := by
    cases e1 <;> cases e2 <;>
      simp_all [Error.variant, Error.Mess, Error.Message]
  simp only [GetMessageBytes, hmsg]

/-- The amended C6 on two Authentication errors with the message "denied". -/
theorem GetMessageBytes_independent_of_Err_witness :
    GetMessageBytes (Error.AuthenticationError "denied" "token expired") =
      GetMessageBytes (Error.AuthenticationError "denied" "user unknown") :=
  GetMessageBytes_independent_of_Err _ _ rfl rfl (Or.inl (by decide))

/-- Claim C8, as stated, fails: with no response handler configured and an error
whose `StatusCode()` is 0, the default writer sets the content type, then
`resp.WriteHeader(0)` panics: no status and no body are written by the call. -/
theorem handleResponse_invalid_status :
    wire (handleResponse none (some (Error.CustomStatusError "" "no status set" 0)) none).1 =
      [.setHeader "Content-Type" "application/json"] ∧
    (handleResponse none (some (Error.CustomStatusError "" "no status set" 0)) none).2 =
      some (.str "invalid WriteHeader code 0") := by
  exact ⟨rfl, by decide⟩

/-- Claim C8, amended: with a response handler configured, `handleResponse` calls it
once with the body and error it was given, its outcome is the outcome of the call,
and the default writer does nothing; with none configured, the default writer sets
`Content-Type` to `application/json`, then for an error whose `StatusCode()` is in
100..999 passes that status to `resp.WriteHeader` and `GetMessageBytes` of the
error to `resp.Write`, and for no error passes 200 and the body it was given. -/
theorem handleResponse_writes (writableResp : Option Bytes) :
    (∀ (err : Option Error) (f : ResponseHandler),
      handleResponse writableResp err (some f) =
        ([.respond writableResp err, .custom writableResp err], f writableResp err) ∧
      wire (handleResponse writableResp err (some f)).1 = []) ∧
    (∀ e : Error, 100 ≤ e.StatusCode ∧ e.StatusCode ≤ 999 →
      handleResponse writableResp (some e) none =
        ([.respond writableResp (some e), .setHeader "Content-Type" "application/json",
          .writeHeader e.StatusCode, .write (some (GetMessageBytes e))], none)) ∧
    handleResponse writableResp none none =
      ([.respond writableResp none, .setHeader "Content-Type" "application/json",
        .writeHeader 200, .write writableResp], none) := by
  refine ⟨fun _ _ => ⟨rfl, rfl⟩, fun e he => ?_, rfl⟩
  unfold handleResponse
  dsimp only
  rw [writeHeaderPanic_none _ he]

/-- The amended C8 on an InvalidInput error (status 400) with the default writer. -/
theorem handleResponse_writes_witness :
    wire (handleResponse none (some (Error.InvalidInputError "" "name missing")) none).1 =
      [.setHeader "Content-Type" "application/json", .writeHeader 400,
        .write (some (GetMessageBytes (Error.InvalidInputError "" "name missing")))] :=
  by rw [(handleResponse_writes none).2.1 (Error.InvalidInputError "" "name missing")
    (by decide)]; rfl

/-- Claim C9, at a failing input: the handler succeeds and the configured response
handler panics with a string when given the body. The response writer is called
with the body, and called again by the deferred function with the Internal
error: two calls in one run. -/
theorem ServeRequest_responds_twice :
    responses (ServeRequest failingResponderServer (sampleRequest "POST" "/widgets")).events =
      [(some (utf8 "\x7b\"id\":1\x7d"), none),
        (none, some (Error.InternalError "" "Unknown server error"))] := by
  decide

/-- Claim C10: whatever `Mess` and `Err` hold, `StatusCode()` is 403 for
Authentication, 401 for Authorization, 400 for InvalidInput, 500 for Internal, 405
for InvalidMethod, and the `Status` field for CustomStatus. -/
theorem StatusCode_by_variant (Mess Err : GoString) (Status : Int) :
    (Error.AuthenticationError Mess Err).StatusCode = 403 ∧
    (Error.AuthorizationError Mess Err).StatusCode = 401 ∧
    (Error.InvalidInputError Mess Err).StatusCode = 400 ∧
    (Error.InternalError Mess Err).StatusCode = 500 ∧
    (Error.InvalidMethodError Mess Err).StatusCode = 405 ∧
    (Error.CustomStatusError Mess Err Status).StatusCode = Status :=
  ⟨rfl, rfl, rfl, rfl, rfl, rfl⟩

/-! ### The body map and the context -/

/-- The assignment `body[k] = v` for a key the map does not hold adds the entry. -/
theorem mapSet_append_new (m : BodyMap) (k : GoString) (v : Value)
    (hk : k ∉ m.map Prod.fst) : mapSet m k v = m ++ [(k, v)] := by
  induction m with
  | nil => rfl
  | cons e m ih =>
    obtain ⟨k1, v1⟩ := e
    simp only [List.map_cons, List.mem_cons, not_or] at hk
    have hne : ¬ k1 = k := fun h => hk.1 h.symm
    simp only [mapSet, if_neg hne, ih hk.2, List.cons_append]

/-- Storing query parameters with distinct keys, none of them in the map yet, adds one
entry per parameter. -/
theorem foldl_mapSet_query (q : Values) :
    ∀ acc : BodyMap, ((acc.map Prod.fst) ++ (q.map Prod.fst)).Nodup →
      q.foldl (fun body kv => mapSet body kv.1 (.strings kv.2)) acc =
        acc ++ q.map fun kv => (kv.1, Value.strings kv.2) := by
  induction q with
  | nil => intro acc _; simp
  | cons e q ih =>
    intro acc hnd
    obtain ⟨k, vs⟩ := e
    have hk : k ∉ acc.map Prod.fst := by
      intro hmem
      have := List.nodup_append.mp hnd
      exact this.2.2 hmem (by simp)
    have hnd' : (((acc ++ [(k, Value.strings vs)]).map Prod.fst) ++ (q.map Prod.fst)).Nodup := by
      simpa using hnd
    simp only [List.foldl_cons, mapSet_append_new acc k _ hk, ih _ hnd', List.map_cons,
      List.append_assoc, List.singleton_append]

/-- The deferred function leaves the body map as it is. -/
theorem body_deferredRecover (sh : charonServerHandler) (run : Served) :
    (deferredRecover sh run).rDetails.body = run.rDetails.body := by
  unfold deferredRecover
  split <;> rfl

/-- `HandleRequest` leaves the body map as it is. -/
theorem body_HandleRequest (h : RouteHandler) (rd : RouteDetails) (req : Request) :
    (HandleRequest h rd req).rDetails.body = rd.body := by
  unfold HandleRequest
  split
  · rfl
  · rfl
  · dsimp only
    split <;> rfl

/-- The route lookup and what follows leave the body map as it is. -/
theorem body_lookupAndServe (sh : charonServerHandler) (req : Request) (rd : RouteDetails) :
    (lookupAndServe sh req rd).rDetails.body = rd.body := by
  unfold lookupAndServe
  split
  · dsimp only
    split
    · exact body_HandleRequest _ _ _
    · rename_i handledResp err _
      cases err <;> exact body_HandleRequest _ _ _
  · rfl

/-- The context of the request after authentication: the returned one when there is one,
else the original. -/
theorem ctx_authenticatedRequest (req : Request) (ctx : Option Context)
    (userInfo : Option Userinfo) :
    (authenticatedRequest req ctx userInfo).ctx = ctx.getD req.ctx := by
  cases ctx <;> cases userInfo <;> rfl

/-! ### Claims, continued -/

/-- Claim C11: for every variant, `Message()` is `Mess` when `Mess` is not empty;
when `Mess` is empty it is `Err` for Authentication, Authorization and
InvalidInput, "Internal Error, please contact admin" for Internal, and "Invalid
Method" for InvalidMethod and for CustomStatus. -/
theorem Message_by_variant (Mess Err : GoString) (Status : Int) :
    (Mess ≠ "" →
      (Error.AuthenticationError Mess Err).Message = Mess ∧
      (Error.AuthorizationError Mess Err).Message = Mess ∧
      (Error.InvalidInputError Mess Err).Message = Mess ∧
      (Error.InternalError Mess Err).Message = Mess ∧
      (Error.InvalidMethodError Mess Err).Message = Mess ∧
      (Error.CustomStatusError Mess Err Status).Message = Mess) ∧
    (Error.AuthenticationError "" Err).Message = Err ∧
    (Error.AuthorizationError "" Err).Message = Err ∧
    (Error.InvalidInputError "" Err).Message = Err ∧
    (Error.InternalError "" Err).Message = "Internal Error, please contact admin" ∧
    (Error.InvalidMethodError "" Err).Message = "Invalid Method" ∧
    (Error.CustomStatusError "" Err Status).Message = "Invalid Method" := by
  refine ⟨fun h => ?_, rfl, rfl, rfl, rfl, rfl, rfl⟩
  simp [Error.Message, h]

/-- The message theorem on an Internal error with a message and on a CustomStatus
error without one. -/
theorem Message_by_variant_witness :
    (Error.InternalError "try later" "db down").Message = "try later" ∧
    (Error.CustomStatusError "" "teapot" 418).Message = "Invalid Method" :=
  ⟨((Message_by_variant "try later" "db down" 0).1 (by decide)).2.2.2.1,
    (Message_by_variant "" "teapot" 418).2.2.2.2.2.2⟩

/-- Claim C12: a request that reaches the route lookup does so with route details
whose body map is, for method `GET` (query parameters being a map: each key
once), one entry per query parameter, mapped to its list of values; for any other
method whose body decodes without error, the decoded object; and for any other
method with an empty body (end-of-stream), nil, the run going on to the route
lookup all the same. The body map is still the same when the run ends. -/
theorem ServeRequest_body_map (serverHandler : charonServerHandler) (req : Request) :
    (req.Method = "GET" → (req.Query.map Prod.fst).Nodup →
      ∃ rDetails : RouteDetails,
        rDetails.Body = some (req.Query.map fun kv => (kv.1, Value.strings kv.2)) ∧
        ServeRequest serverHandler req =
          deferredRecover serverHandler (lookupAndServe serverHandler req rDetails) ∧
        (ServeRequest serverHandler req).rDetails.Body = rDetails.Body) ∧
    (req.Method ≠ "GET" → req.decodeErr = none →
      ∃ rDetails : RouteDetails,
        rDetails.Body = req.decodedBody ∧
        ServeRequest serverHandler req =
          deferredRecover serverHandler (lookupAndServe serverHandler req rDetails) ∧
        (ServeRequest serverHandler req).rDetails.Body = rDetails.Body) ∧
    (req.Method ≠ "GET" → req.decodeErr = some (utf8 "EOF") →
      ∃ rDetails : RouteDetails,
        rDetails.Body = none ∧
        ServeRequest serverHandler req =
          deferredRecover serverHandler (lookupAndServe serverHandler req rDetails) ∧
        (ServeRequest serverHandler req).rDetails.Body = rDetails.Body) := by
  have hrun : ServeRequest serverHandler req = deferredRecover serverHandler
      (serveBody serverHandler req
        (serverHandler.logger.LogInfo ("Incoming Request  " ++ req.Method ++ " : " ++ req.Path)
          ⟨req.Method, req.Path, req.Header, none, none, ""⟩)) := rfl
  have hfinal : ∀ rd : RouteDetails,
      (deferredRecover serverHandler (lookupAndServe serverHandler req rd)).rDetails.Body
        = rd.Body := by
    intro rd
    show (deferredRecover serverHandler (lookupAndServe serverHandler req rd)).rDetails.body
      = rd.body
    rw [body_deferredRecover, body_lookupAndServe]
  generalize serverHandler.logger.LogInfo
    ("Incoming Request  " ++ req.Method ++ " : " ++ req.Path)
    ⟨req.Method, req.Path, req.Header, none, none, ""⟩ = rd0 at hrun
  refine ⟨?_, ?_, ?_⟩
  · intro hg hnd
    have hq := foldl_mapSet_query req.Query [] (by simpa using hnd)
    have hsb : serveBody serverHandler req rd0 = lookupAndServe serverHandler req
        { rd0 with body := some (req.Query.map fun kv => (kv.1, Value.strings kv.2)) } := by
      unfold serveBody
      rw [if_pos hg, hq, List.nil_append]
    rw [hrun, hsb]
    refine ⟨_, ?_, rfl, hfinal _⟩
    rfl
  · intro hg he
    have hsb : serveBody serverHandler req rd0 = lookupAndServe serverHandler req
        { rd0 with body := req.decodedBody } := by
      unfold serveBody
      rw [if_neg hg, he]
    rw [hrun, hsb]
    refine ⟨_, ?_, rfl, hfinal _⟩
    rfl
  · intro hg he
    have hsb : serveBody serverHandler req rd0 = lookupAndServe serverHandler req
        { rd0 with body := none } := by
      unfold serveBody
      rw [if_neg hg, he]
      simp only [if_true]
    rw [hrun, hsb]
    refine ⟨_, ?_, rfl, hfinal _⟩
    rfl

/-- The body-map theorem on a `GET` with a query, a `POST` with an empty object and
a `POST` with an empty body. -/
theorem ServeRequest_body_map_witness :
    (ServeRequest widgetServer queryRequest).rDetails.Body =
      some [(utf8 "page", Value.strings ["1"]), (utf8 "tag", Value.strings ["a", "b"])] ∧
    (ServeRequest widgetServer (sampleRequest "POST" "/widgets")).rDetails.Body = some [] ∧
    (ServeRequest widgetServer emptyBodyRequest).rDetails.Body = none :=
  ⟨by obtain ⟨_, h1, _, h3⟩ := (ServeRequest_body_map widgetServer queryRequest).1 rfl
        (by decide)
      exact h3.trans h1,
    by obtain ⟨_, h1, _, h3⟩ := (ServeRequest_body_map widgetServer
        (sampleRequest "POST" "/widgets")).2.1 (by decide) rfl
       exact h3.trans h1,
    by obtain ⟨_, h1, _, h3⟩ := (ServeRequest_body_map widgetServer emptyBodyRequest).2.2
        (by decide) rfl
       exact h3.trans h1⟩

/-- Claim C13: when `IsAuthenticated` returns no error and `IsValidInput`, called
on the route details whose context is the one `IsAuthenticated` returned if it is
not nil and the request's original context otherwise, returns no error, then the
three stages run, `HandleCall` is called on those same route details, and
`HandleRequest` ends as `HandleCall` does: it returns exactly the pair `HandleCall`
returned. The result depends on `IsValidInput` and `HandleCall` only through
their values at those route details. -/
theorem HandleRequest_context_and_result (handler : RouteHandler) (rDetails : RouteDetails)
    (req : Request) (ctx : Option Context) (userInfo : Option Userinfo)
    (hauth : handler.IsAuthenticated req.ctx req.Header = .ret (ctx, userInfo, none))
    (hvalid : handler.IsValidInput { rDetails with ctx := some (ctx.getD req.ctx) }
      = .ret none) :
    (∀ c, ctx = some c →
      RouteDetails.Context { rDetails with ctx := some (ctx.getD req.ctx) } = some c) ∧
    (ctx = none →
      RouteDetails.Context { rDetails with ctx := some (ctx.getD req.ctx) } = some req.ctx) ∧
    (HandleRequest handler rDetails req).events =
      [.stage handler .IsAuthenticated, .stage handler .IsValidInput,
        .stage handler .HandleCall] ∧
    (HandleRequest handler rDetails req).out =
      (handler.HandleCall { rDetails with ctx := some (ctx.getD req.ctx) }).2 ∧
    (∀ written body err,
      handler.HandleCall { rDetails with ctx := some (ctx.getD req.ctx) }
        = (written, .ret (body, err)) →
      (HandleRequest handler rDetails req).out = .ret (body, err)) ∧
    (HandleRequest handler rDetails req).rDetails.Context = some (ctx.getD req.ctx) ∧
    (∀ other : RouteHandler,
      other.IsAuthenticated req.ctx req.Header = handler.IsAuthenticated req.ctx req.Header →
      other.IsValidInput { rDetails with ctx := some (ctx.getD req.ctx) } =
        handler.IsValidInput { rDetails with ctx := some (ctx.getD req.ctx) } →
      other.HandleCall { rDetails with ctx := some (ctx.getD req.ctx) } =
        handler.HandleCall { rDetails with ctx := some (ctx.getD req.ctx) } →
      (HandleRequest other rDetails req).out = (HandleRequest handler rDetails req).out ∧
      (HandleRequest other rDetails req).rDetails = (HandleRequest handler rDetails req).rDetails) := by
  have hrun : ∀ h : RouteHandler,
      h.IsAuthenticated req.ctx req.Header = .ret (ctx, userInfo, none) →
      h.IsValidInput { rDetails with ctx := some (ctx.getD req.ctx) } = .ret none →
      HandleRequest h rDetails req =
        ⟨RouteDetails.WriteLog { rDetails with ctx := some (ctx.getD req.ctx) }
            (h.HandleCall { rDetails with ctx := some (ctx.getD req.ctx) }).1,
          [.stage h .IsAuthenticated, .stage h .IsValidInput, .stage h .HandleCall],
          (h.HandleCall { rDetails with ctx := some (ctx.getD req.ctx) }).2⟩ := by
    intro h ha hv
    unfold HandleRequest
    rw [ha]
    simp only [ctx_authenticatedRequest]
    rw [hv]
  refine ⟨?_, ?_, ?_, ?_, ?_, ?_, ?_⟩
  · intro c hc; subst hc; rfl
  · intro hc; subst hc; rfl
  · rw [hrun handler hauth hvalid]
  · rw [hrun handler hauth hvalid]
  · intro written body err hcall
    rw [hrun handler hauth hvalid, hcall]
  · rw [hrun handler hauth hvalid]; rfl
  · intro other ha hv hc
    rw [hrun handler hauth hvalid, hrun other (ha.trans hauth) (hv.trans hvalid), hc]
    exact ⟨rfl, rfl⟩

/-- The context theorem on a handler that returns a new context and on one that
returns none. -/
theorem HandleRequest_context_and_result_witness :
    (HandleRequest enrichingHandler widgetDetails (sampleRequest "POST" "/widgets")).out =
      .ret (some (utf8 "seen"), none) ∧
    (HandleRequest (acceptingHandler "ok") widgetDetails
      (sampleRequest "POST" "/widgets")).rDetails.Context = some ⟨0⟩ :=
  ⟨(HandleRequest_context_and_result enrichingHandler widgetDetails
      (sampleRequest "POST" "/widgets") (some ⟨7⟩) none rfl rfl).2.2.2.2.1 "" _ _ rfl,
    (HandleRequest_context_and_result (acceptingHandler "ok") widgetDetails
      (sampleRequest "POST" "/widgets") none none rfl rfl).2.2.2.2.2.1⟩

end Charon
